import Mathlib

/-!
Verification of the acme-to-acm certificate orchestrator.

This file gives a shallow embedding of the orchestration logic of the
acme-to-acm repository: the ACM renewal decision (`needsRenewal`), the
certbot output-directory resolution, the certbot command construction
(both the execFileSync argument-vector variant and the execSync
shell-string variant present in the repository), and the Lambda mode
handlers (`register`, `certonly`, `renew`) with their per-certificate
processing loop.  Machine times are modelled as integer milliseconds
since the epoch; filesystem and AWS effects are modelled by explicit
oracles; exceptions are modelled by explicit failure flags and
short-circuiting control flow mirroring the source try/catch structure.
-/

namespace AcmeToAcm

/-! ### Certificate metadata and the renewal decision
From `src/lambda/src/acm/certificate-manager.ts`. -/

/-- Certificate metadata returned by ACM DescribeCertificate, as in the
`CertificateInfo` interface of `acm/certificate-manager.ts`.  `notAfter`
is the expiry in integer milliseconds since the epoch (`Date.getTime()`),
absent when ACM reports no expiry. -/
structure CertInfo where
  arn : String
  domainName : String
  notAfter : Option Int
  status : Option String
  deriving DecidableEq, Repr

/-- Milliseconds per day, the divisor `1000 * 60 * 60 * 24` used by
`needsRenewal` in `acm/certificate-manager.ts`. -/
def msPerDay : Int := 1000 * 60 * 60 * 24

/-- The renewal decision of `CertificateManager.needsRenewal`
(`acm/certificate-manager.ts` lines 144-163).  `info` is the result of
`getCertificateInfo(arn)` (`none` models both a `null` return and a
certificate record without `NotAfter`); `now` is `new Date().getTime()`.
The source computes
`Math.floor((expiry - now) / 86400000) <= daysBeforeExpiry`, returning
`true` when the certificate info or its expiry is missing. -/
def needsRenewal (info : Option CertInfo) (now : Int) (daysBeforeExpiry : Int) : Bool :=
  match info with
  | none => true
  | some i =>
    match i.notAfter with
    | none => true
    | some notAfter =>
      decide (Int.fdiv (notAfter - now) msPerDay ≤ daysBeforeExpiry)

/-! ### Certbot output-directory resolution
From the execFileSync runner variant (`src/unnamed/part_006`):
`parseCertificateDir`, `findLatestCertDir` and `getCertificatePaths`. -/

/-- Numeric value of a list of decimal digit characters, as `parseInt`
computes it on the digit group captured by the regex. -/
def digitsVal (cs : List Char) : Nat :=
  cs.foldl (fun acc c => acc * 10 + (c.toNat - 48)) 0

/-- The sort key of `findLatestCertDir`: the source applies the regex
`-(\d+)$` to the directory name and evaluates `parseInt` on the captured
digit group, i.e. the value of a trailing dash-digits group of the name,
defaulting to `-1` when the name has no such trailing group. -/
def trailingNumber (name : String) : Int :=
  let rev := name.toList.reverse
  let digits := rev.takeWhile Char.isDigit
  match rev.drop digits.length with
  | '-' :: _ =>
    if digits.isEmpty then -1 else Int.ofNat (digitsVal digits.reverse)
  | _ => -1

/-- Whether what follows the primary domain in a candidate directory name
completes the pattern `^<domain>(-\d+)?$`: either nothing, or a dash
followed by one or more digits. -/
def isLineageSuffix (cs : List Char) : Bool :=
  match cs with
  | [] => true
  | '-' :: ds => !ds.isEmpty && ds.all Char.isDigit
  | _ => false

/-- The directory-name filter of `findLatestCertDir`: the regex
`^<escaped domain>(-\d+)?$` applied to an entry of `config/live`. -/
def matchesLineagePattern (domain name : String) : Bool :=
  (name.toList.take domain.toList.length == domain.toList) &&
    isLineageSuffix (name.toList.drop domain.toList.length)

/-- One comparison step of the descending sort in `findLatestCertDir`:
keep the candidate with the larger trailing number, preferring the
earlier directory entry on ties (the sort is stable). -/
def pickLatest (best e : String) : String :=
  if trailingNumber best < trailingNumber e then e else best

/-- `findLatestCertDir` of the execFileSync runner variant: filter the
entries of `config/live` by `^<domain>(-\d+)?$`, sort descending by
trailing number (the unnumbered directory counting as `-1`), and return
the first; error when no entry matches.  `liveEntries` is the
`readdirSync` listing restricted to directories. -/
def findLatestCertDir (primaryDomain : String) (liveEntries : List String) :
    Except String String :=
  match liveEntries.filter (matchesLineagePattern primaryDomain) with
  | [] => .error ("No certificate directory found for " ++ primaryDomain)
  | d :: ds => .ok (ds.foldl pickLatest d)

/-- Tiers two and three of `getCertificatePaths`: try the deterministic
directory `config/live/<primaryDomain>`, else (when the live base
directory exists) scan for the highest-numbered lineage directory.
`pathExists` models `fs.existsSync`. -/
def resolveDefaultDir (configDir primaryDomain : String)
    (pathExists : String → Bool) (liveEntries : List String) :
    Except String String :=
  let defaultDir := configDir ++ "/live/" ++ primaryDomain
  if pathExists defaultDir then .ok defaultDir
  else if pathExists (configDir ++ "/live") then
    (findLatestCertDir primaryDomain liveEntries).map
      (fun name => configDir ++ "/live/" ++ name)
  else .error ("Live directory not found: " ++ configDir ++ "/live")

/-- The directory-selection logic of `getCertificatePaths` in the
execFileSync runner variant: prefer the directory parsed from certbot's
captured "saved at" output when it exists, else fall back to the
deterministic directory, else to the numbered-directory scan.
`certbotOutputDir` is the result of `parseCertificateDir` on the
captured stdout (`none` when no "saved at" line was found). -/
def resolveLiveDir (configDir primaryDomain : String)
    (certbotOutputDir : Option String) (pathExists : String → Bool)
    (liveEntries : List String) : Except String String :=
  match certbotOutputDir with
  | some d =>
    if pathExists d then .ok d
    else resolveDefaultDir configDir primaryDomain pathExists liveEntries
  | none => resolveDefaultDir configDir primaryDomain pathExists liveEntries

/-- The four certificate file paths built by `getCertificatePaths` once
the live directory is resolved, each required to exist. -/
structure CertbotCertificatePaths where
  certPath : String
  chainPath : String
  fullChainPath : String
  privateKeyPath : String
  deriving DecidableEq, Repr

/-- Full `getCertificatePaths`: resolve the live directory, build the
four PEM paths inside it, and fail if any of them does not exist. -/
def getCertificatePaths (configDir primaryDomain : String)
    (certbotOutputDir : Option String) (pathExists : String → Bool)
    (liveEntries : List String) : Except String CertbotCertificatePaths :=
  match resolveLiveDir configDir primaryDomain certbotOutputDir pathExists liveEntries with
  | .error e => .error e
  | .ok liveDir =>
    let paths : CertbotCertificatePaths :=
      { certPath := liveDir ++ "/cert.pem"
        chainPath := liveDir ++ "/chain.pem"
        fullChainPath := liveDir ++ "/fullchain.pem"
        privateKeyPath := liveDir ++ "/privkey.pem" }
    if pathExists paths.certPath && pathExists paths.chainPath &&
        pathExists paths.fullChainPath && pathExists paths.privateKeyPath then
      .ok paths
    else .error "Certificate file not found"

/-! ### Certbot command construction
The repository contains two copies of the runner.  The execSync variant
(`src/lambda/src/certbot/runner.ts`) joins the tokens with spaces into a
single shell-interpreted string; the execFileSync variant
(`src/unnamed/part_006`) passes a literal argument array. -/

/-- Payload of the `register` mode (`RegisterPayload.input`). -/
structure RegisterInput where
  email : String
  server : String
  eabKid : String
  eabHmacKey : String
  deriving DecidableEq, Repr

/-- Key type of a certificate entry (`'rsa' | 'ecdsa'`). -/
inductive KeyType where
  | rsa
  | ecdsa
  deriving DecidableEq, Repr

/-- The certbot CLI spelling of a key type. -/
def keyTypeStr : KeyType → String
  | .rsa => "rsa"
  | .ecdsa => "ecdsa"

/-- Parameters of `buildCertbotCommand` (both variants; `certName` is
accepted only by the execFileSync variant and ignored by the execSync
variant, whose parameter record has no such field). -/
structure CertbotParams where
  domains : List String
  email : String
  serverUrl : String
  route53HostedZoneId : String
  forceRenewal : Bool
  keyType : Option KeyType
  rsaKeySize : Option Nat
  certName : Option String
  deriving DecidableEq, Repr

/-- Space-join of a list of strings, as `args.join(' ')` computes it. -/
def joinSp : List String → String
  | [] => ""
  | [s] => s
  | s :: rest => s ++ " " ++ joinSp rest

/-- Naive shell word-splitting on spaces: how `/bin/sh` tokenizes a
command string free of quotes and metacharacters other than spaces.
Models the tokenization the shell applies to the string handed to
`execSync`. -/
def shellSplit (s : String) : List String :=
  ((s.toList.splitOn ' ').map String.mk).filter (fun t => t ≠ "")

/-- `registerAccount` of the execSync runner variant
(`src/lambda/src/certbot/runner.ts` lines 70-108): the certbot register
tokens are concatenated with spaces into one command string which is
then handed to `execSync`, i.e. interpreted by a shell. -/
def registerCommandString (configDir workDir logsDir : String)
    (p : RegisterInput) : String :=
  joinSp
    ["certbot register",
     "--non-interactive",
     "--agree-tos",
     "-m " ++ p.email,
     "--server " ++ p.server,
     "--eab-kid " ++ p.eabKid,
     "--eab-hmac-key " ++ p.eabHmacKey,
     "--config-dir " ++ configDir,
     "--work-dir " ++ workDir,
     "--logs-dir " ++ logsDir]

/-- `registerAccount` of the execFileSync runner variant
(`src/unnamed/part_006` lines 70-107): the argument vector handed to
`execFileSync('certbot', args)`, one payload field per element. -/
def registerCommandArgs (configDir workDir logsDir : String)
    (p : RegisterInput) : List String :=
  ["register",
   "--non-interactive",
   "--agree-tos",
   "-m", p.email,
   "--server", p.server,
   "--eab-kid", p.eabKid,
   "--eab-hmac-key", p.eabHmacKey,
   "--config-dir", configDir,
   "--work-dir", workDir,
   "--logs-dir", logsDir]

/-- `buildCertbotCommand` of the execSync runner variant
(`src/lambda/src/certbot/runner.ts` lines 236-277): tokens joined with
spaces into one shell-interpreted string (no cert-name support). -/
def buildCertbotCommandString (configDir workDir logsDir : String)
    (p : CertbotParams) : String :=
  let keyType := p.keyType.getD .rsa
  let rsaKeySize := p.rsaKeySize.getD 2048
  let domainArgs := joinSp (p.domains.map (fun d => "-d " ++ d))
  joinSp
    ((["certbot certonly",
       "--non-interactive",
       "--agree-tos",
       "--email " ++ p.email,
       "--dns-route53",
       "--server " ++ p.serverUrl,
       "--config-dir " ++ configDir,
       "--work-dir " ++ workDir,
       "--logs-dir " ++ logsDir,
       domainArgs,
       "--preferred-challenges dns-01",
       "--key-type " ++ keyTypeStr keyType]
      ++ (if keyType = .rsa then ["--rsa-key-size " ++ toString rsaKeySize] else [])
      ++ (if p.forceRenewal then ["--force-renewal"] else [])))

/-- `buildCertbotCommand` of the execFileSync runner variant
(`src/unnamed/part_006` lines 246-291): the literal argument array for
`execFileSync('certbot', args)`. -/
def buildCertbotCommandArgs (configDir workDir logsDir : String)
    (p : CertbotParams) : List String :=
  let keyType := p.keyType.getD .rsa
  let rsaKeySize := p.rsaKeySize.getD 2048
  (["certonly",
    "--non-interactive",
    "--agree-tos",
    "--email", p.email,
    "--dns-route53",
    "--server", p.serverUrl,
    "--config-dir", configDir,
    "--work-dir", workDir,
    "--logs-dir", logsDir]
    ++ p.domains.flatMap (fun d => ["-d", d])
    ++ ["--preferred-challenges", "dns-01", "--key-type", keyTypeStr keyType])
    ++ (if keyType = .rsa then ["--rsa-key-size", toString rsaKeySize] else [])
    ++ (if p.forceRenewal then ["--force-renewal"] else [])
    ++ (match p.certName with
        | some c => ["--cert-name", c]
        | none => [])

/-! ### Configuration entries and per-entry results
From `src/lambda/src/types/domain-config.ts` and the handler. -/

/-- One entry of the `domains.json` configuration document
(`CertificateConfig` in `types/domain-config.ts`). -/
structure CertificateConfig where
  id : String
  domains : List String
  email : String
  acmeProvider : String
  acmeServerUrl : Option String
  route53HostedZoneId : String
  acmCertificateArn : Option String
  renewDaysBeforeExpiry : Int
  enabled : Bool
  keyType : Option KeyType
  rsaKeySize : Option Nat
  deriving DecidableEq, Repr

/-- Per-entry outcome record (`RenewalResult` in
`types/domain-config.ts`).  Optional TS fields left `undefined` are
modelled by `false` (for `skipped`, matching the truthiness tests the
handler applies) and `none`. -/
structure RenewalResult where
  certificateId : String
  domains : List String
  success : Bool
  skipped : Bool
  skipReason : Option String
  acmCertificateArn : Option String
  expiryDate : Option Int
  error : Option String
  deriving DecidableEq, Repr

/-- The failure record built by the catch block of `processCertificate`. -/
def failureResult (cfg : CertificateConfig) (msg : String) : RenewalResult :=
  { certificateId := cfg.id
    domains := cfg.domains
    success := false
    skipped := false
    skipReason := none
    acmCertificateArn := none
    expiryDate := none
    error := some msg }

/-- The record returned when `needsRenewal` answers `false`. -/
def notYetDueResult (cfg : CertificateConfig) : RenewalResult :=
  { certificateId := cfg.id
    domains := cfg.domains
    success := false
    skipped := true
    skipReason := some "Certificate is still valid and not due for renewal"
    acmCertificateArn := cfg.acmCertificateArn
    expiryDate := none
    error := none }

/-- The record returned on the dry-run branch of `processCertificate`. -/
def dryRunResult (cfg : CertificateConfig) : RenewalResult :=
  { certificateId := cfg.id
    domains := cfg.domains
    success := true
    skipped := true
    skipReason := some "Dry run mode - no actual changes made"
    acmCertificateArn := none
    expiryDate := none
    error := none }

/-- The record pushed by `handleRenewMode` for a disabled entry. -/
def disabledResult (cfg : CertificateConfig) : RenewalResult :=
  { certificateId := cfg.id
    domains := cfg.domains
    success := false
    skipped := true
    skipReason := some "Certificate is disabled in configuration"
    acmCertificateArn := none
    expiryDate := none
    error := none }

/-- The record returned after a successful obtain/backup/import/describe
sequence. -/
def successResult (cfg : CertificateConfig) (arn : String)
    (expiry : Option Int) : RenewalResult :=
  { certificateId := cfg.id
    domains := cfg.domains
    success := true
    skipped := false
    skipReason := none
    acmCertificateArn := some arn
    expiryDate := expiry
    error := none }

/-! ### The mode handlers
From the handler (`src/unnamed/part_003`): `handleRegisterMode`,
`handleCertonlyMode`, `handleRenewMode` and `processCertificate`.
Side effects are recorded as a trace of events; AWS and certbot
behaviour is supplied by an oracle `Env`, whose `*Fails` fields say
which calls raise an exception. -/

/-- Observable side-effecting operations of one invocation.  `pull` is
`syncS3ToDirectory('certbot', configDir)`, `push` is
`syncDirectoryToS3(configDir, 'certbot')`, `register` and `obtain` are
the certbot subprocess invocations, `backup` is the S3 certificate
backup, `importCert` the ACM import, `checkRenewal` and `describeCert`
the ACM describe calls, and the notify events the SNS publications
(which never raise: the notifier swallows publish failures). -/
inductive Ev where
  | pull
  | register
  | checkRenewal (id : String)
  | obtain (id : String)
  | backup (id : String)
  | importCert (id : String)
  | describeCert (arn : String)
  | push
  | notifySummary
  | notifySuccess
  | notifyError
  | cleanup
  deriving DecidableEq, Repr

/-- Environment oracle for one renew invocation.  Fallible calls are
indexed by certificate id or by ACM ARN; a `true` flag means the call
raises, and the matching `*Error` field is the raised error message. -/
structure Env where
  pullFails : Bool
  pushFails : Bool
  checkFails : String → Bool
  checkError : String → String
  needsRenewalAns : String → Bool
  obtainFails : String → Bool
  obtainError : String → String
  backupFails : String → Bool
  backupError : String → String
  importFails : String → Bool
  importError : String → String
  importArn : String → String
  descFails : String → Bool
  descError : String → String
  descExpiry : String → Option Int

/-- The action part of `processCertificate` (after the renewal decision):
dry-run short-circuit, then obtain → backup → import → describe, each
step's exception caught by the surrounding per-certificate try/catch and
turned into a failure record. -/
def afterDecision (env : Env) (cfg : CertificateConfig) (dryRun : Bool) :
    RenewalResult × List Ev :=
  if dryRun then (dryRunResult cfg, [])
  else if env.obtainFails cfg.id then
    (failureResult cfg (env.obtainError cfg.id), [.obtain cfg.id])
  else if env.backupFails cfg.id then
    (failureResult cfg (env.backupError cfg.id), [.obtain cfg.id, .backup cfg.id])
  else if env.importFails cfg.id then
    (failureResult cfg (env.importError cfg.id),
     [.obtain cfg.id, .backup cfg.id, .importCert cfg.id])
  else if env.descFails (env.importArn cfg.id) then
    (failureResult cfg (env.descError (env.importArn cfg.id)),
     [.obtain cfg.id, .backup cfg.id, .importCert cfg.id,
      .describeCert (env.importArn cfg.id)])
  else
    (successResult cfg (env.importArn cfg.id)
       (env.descExpiry (env.importArn cfg.id)),
     [.obtain cfg.id, .backup cfg.id, .importCert cfg.id,
      .describeCert (env.importArn cfg.id)])

/-- `processCertificate` (`src/unnamed/part_003` lines 925-1015): when
the entry has a prior ACM ARN, ask `needsRenewal` (whose own exception
is caught by the same per-certificate try/catch); skip when not due;
otherwise run the action part.  Returns the per-entry result and the
trace of operations performed for this entry. -/
def processCertificate (env : Env) (cfg : CertificateConfig) (dryRun : Bool) :
    RenewalResult × List Ev :=
  match cfg.acmCertificateArn with
  | some arn =>
    if env.checkFails arn then
      (failureResult cfg (env.checkError arn), [.checkRenewal cfg.id])
    else if env.needsRenewalAns arn then
      let step := afterDecision env cfg dryRun
      (step.1, .checkRenewal cfg.id :: step.2)
    else
      (notYetDueResult cfg, [.checkRenewal cfg.id])
  | none => afterDecision env cfg dryRun

/-- Whether the caller-supplied certificate-id filter excludes an id:
`event.certificateIds && !event.certificateIds.includes(id)`. -/
def filterExcludes (filter : Option (List String)) (id : String) : Bool :=
  match filter with
  | some ids => !(ids.contains id)
  | none => false

/-- The per-entry loop of `handleRenewMode`: disabled entries get a
skipped record and no processing; entries excluded by the id filter are
passed over silently; every other entry is processed and contributes
exactly one result.  Results and traces are accumulated in document
order. -/
def renewLoop (env : Env) (filter : Option (List String)) (dryRun : Bool) :
    List CertificateConfig → List RenewalResult × List Ev
  | [] => ([], [])
  | cfg :: rest =>
    let tail := renewLoop env filter dryRun rest
    if !cfg.enabled then
      (disabledResult cfg :: tail.1, tail.2)
    else if filterExcludes filter cfg.id then
      tail
    else
      let step := processCertificate env cfg dryRun
      (step.1 :: tail.1, step.2 ++ tail.2)

/-- `results.filter(r => r.success).length`. -/
def countSuccess (rs : List RenewalResult) : Nat :=
  (rs.filter (fun r => r.success)).length

/-- `results.filter(r => r.success === false && !r.skipped).length`. -/
def countFailed (rs : List RenewalResult) : Nat :=
  (rs.filter (fun r => !r.success && !r.skipped)).length

/-- `results.filter(r => r.skipped).length`. -/
def countSkipped (rs : List RenewalResult) : Nat :=
  (rs.filter (fun r => r.skipped)).length

/-- The structured Lambda response (`LambdaResponse` in
`types/domain-config.ts`, body flattened). -/
structure LambdaResponse where
  statusCode : Nat
  message : String
  results : List RenewalResult
  totalProcessed : Nat
  totalSuccess : Nat
  totalFailed : Nat
  totalSkipped : Nat
  deriving DecidableEq, Repr

/-- Response whose counters are the summary statistics `handleRenewMode`
computes over the accumulated results (identically on its 200 and 500
paths). -/
def mkSummaryResponse (status : Nat) (msg : String)
    (rs : List RenewalResult) : LambdaResponse :=
  { statusCode := status
    message := msg
    results := rs
    totalProcessed := rs.length
    totalSuccess := countSuccess rs
    totalFailed := countFailed rs
    totalSkipped := countSkipped rs }

/-- `handleRenewMode` (`src/unnamed/part_003` lines 807-920).
`configDoc` is the outcome of downloading and parsing `domains.json`
(`.error` models both an absent object and unparseable JSON, which the
batch-level catch turns into a 500 response).  The S3 state pull runs
after the config download; each entry is processed by `renewLoop`; the
state push and the summary notification follow; the batch-level catch
returns 500 with the results accumulated so far, and cleanup always
runs last. -/
def handleRenewMode (env : Env)
    (configDoc : Except String (List CertificateConfig))
    (certificateIds : Option (List String)) (dryRun : Bool) :
    LambdaResponse × List Ev :=
  match configDoc with
  | .error e =>
    (mkSummaryResponse 500 ("Error: " ++ e) [], [.notifyError, .cleanup])
  | .ok certs =>
    if env.pullFails then
      (mkSummaryResponse 500 "Error: failed to sync certbot state from S3" [],
       [.pull, .notifyError, .cleanup])
    else if env.pushFails then
      (mkSummaryResponse 500 "Error: failed to sync certbot state to S3"
         (renewLoop env certificateIds dryRun certs).1,
       .pull :: (renewLoop env certificateIds dryRun certs).2
         ++ [.push, .notifyError, .cleanup])
    else
      (mkSummaryResponse 200 "Certificate renewal process completed"
         (renewLoop env certificateIds dryRun certs).1,
       .pull :: (renewLoop env certificateIds dryRun certs).2
         ++ [.push, .notifySummary, .cleanup])

/-- The fixed 200 response of `handleRegisterMode`. -/
def registerSuccessResponse : LambdaResponse :=
  { statusCode := 200
    message := "ACME account registered successfully"
    results := []
    totalProcessed := 0
    totalSuccess := 1
    totalFailed := 0
    totalSkipped := 0 }

/-- The fixed 500 response of `handleRegisterMode`'s catch block. -/
def registerFailureResponse (msg : String) : LambdaResponse :=
  { statusCode := 500
    message := "Registration failed: " ++ msg
    results := []
    totalProcessed := 0
    totalSuccess := 0
    totalFailed := 1
    totalSkipped := 0 }

/-- `handleRegisterMode` (`src/unnamed/part_003` lines 619-688): pull
the certbot state from S3, register the ACME account, push the state
back, notify; any exception is caught, notified and turned into a 500
response, and cleanup always runs last.  The three flags say which of
the pull, register and push calls raises. -/
def handleRegisterMode (pullFails registerFails pushFails : Bool) :
    LambdaResponse × List Ev :=
  if pullFails then
    (registerFailureResponse "S3 sync failed", [.pull, .notifyError, .cleanup])
  else if registerFails then
    (registerFailureResponse "Certbot register failed",
     [.pull, .register, .notifyError, .cleanup])
  else if pushFails then
    (registerFailureResponse "S3 sync failed",
     [.pull, .register, .push, .notifyError, .cleanup])
  else
    (registerSuccessResponse,
     [.pull, .register, .push, .notifySuccess, .cleanup])

/-! ### The certonly-mode configuration append
From `handleCertonlyMode` (`src/unnamed/part_003` lines 193-270). -/

/-- Payload of the `certonly` mode (`CertonlyPayload.input`). -/
structure CertonlyInput where
  domains : List String
  email : String
  server : String
  route53HostedZoneId : String
  acmCertificateArn : Option String
  keyType : Option KeyType
  rsaKeySize : Option Nat
  forceRenewal : Option Bool
  deriving DecidableEq, Repr

/-- The certificate id generated for a manual acquisition:
`manual-` followed by the primary domain with every character outside
`[a-zA-Z0-9]` replaced by a dash. -/
def mkManualCertId (primaryDomain : String) : String :=
  "manual-" ++
    String.mk (primaryDomain.toList.map
      (fun c => if c.isAlphanum then c else '-'))

/-- The `CertificateConfig` entry `handleCertonlyMode` builds after a
successful acquisition and import (the source indexes `domains[0]`,
which the caller guarantees non-empty; an empty list is mapped to the
empty primary domain here). -/
def newCertEntry (payload : CertonlyInput) (acmArn : String) :
    CertificateConfig :=
  { id := mkManualCertId (payload.domains.headD "")
    domains := payload.domains
    email := payload.email
    acmeProvider := "custom"
    acmeServerUrl := some payload.server
    route53HostedZoneId := payload.route53HostedZoneId
    acmCertificateArn := some acmArn
    renewDaysBeforeExpiry := 30
    enabled := true
    keyType := some (payload.keyType.getD .rsa)
    rsaKeySize := payload.rsaKeySize }

/-- The configuration-document mutation of `handleCertonlyMode`:
`config.certificates.push(newCertConfig)` — an unconditional append of
the new entry at the end of the list. -/
def certonlyAppend (certificates : List CertificateConfig)
    (payload : CertonlyInput) (acmArn : String) : List CertificateConfig :=
  certificates ++ [newCertEntry payload acmArn]

/-- The specified invariant of the configuration document: entry ids
are pairwise distinct. -/
def idsUnique (certificates : List CertificateConfig) : Prop :=
  (certificates.map (fun c => c.id)).Nodup

instance (certificates : List CertificateConfig) :
    Decidable (idsUnique certificates) := by
  unfold idsUnique
  infer_instance

/-! ### Concrete fixtures used by witnesses and counterexamples -/

/-- Oracle on which every call succeeds: the import returns a fresh ARN
derived from the certificate id and the describe after import reports
no expiry. -/
def benignEnv : Env :=
  { pullFails := false
    pushFails := false
    checkFails := fun _ => false
    checkError := fun _ => "check error"
    needsRenewalAns := fun _ => true
    obtainFails := fun _ => false
    obtainError := fun _ => "Certbot failed: exit 1"
    backupFails := fun _ => false
    backupError := fun _ => "backup error"
    importFails := fun _ => false
    importError := fun _ => "ACM did not return a certificate ARN"
    importArn := fun id => "arn:aws:acm:new-" ++ id
    descFails := fun _ => false
    descError := fun _ => "describe error"
    descExpiry := fun _ => none }

/-- An enabled entry without a prior ACM ARN, named by its id. -/
def sampleEntry (id : String) : CertificateConfig :=
  { id := id
    domains := [id ++ ".example.com"]
    email := "ops@example.com"
    acmeProvider := "letsencrypt"
    acmeServerUrl := none
    route53HostedZoneId := "Z123"
    acmCertificateArn := none
    renewDaysBeforeExpiry := 30
    enabled := true
    keyType := some .rsa
    rsaKeySize := some 2048 }

/-- Oracle for the three-entry batch in which only entry `b`'s certbot
obtain raises. -/
def scenarioDEnv : Env :=
  { benignEnv with obtainFails := fun id => id == "b" }

/-- The three-entry batch of end-to-end scenario D. -/
def scenarioDCerts : List CertificateConfig :=
  [sampleEntry "a", sampleEntry "b", sampleEntry "c"]

/-- Oracle whose final S3 state push raises. -/
def pushFailEnv : Env :=
  { benignEnv with pushFails := true }

/-- A `domains.json` already holding the entry a previous manual
acquisition for `example.com` would have appended. -/
def existingManualEntry : CertificateConfig :=
  { id := "manual-example-com"
    domains := ["example.com"]
    email := "ops@example.com"
    acmeProvider := "custom"
    acmeServerUrl := some "https://acme.example/directory"
    route53HostedZoneId := "Z123"
    acmCertificateArn := some "arn:aws:acm:old"
    renewDaysBeforeExpiry := 30
    enabled := true
    keyType := some .rsa
    rsaKeySize := some 2048 }

/-- A certonly payload for `example.com`. -/
def certonlyPayloadExample : CertonlyInput :=
  { domains := ["example.com"]
    email := "ops@example.com"
    server := "https://acme.example/directory"
    route53HostedZoneId := "Z123"
    acmCertificateArn := none
    keyType := none
    rsaKeySize := none
    forceRenewal := none }

/-- A register payload whose email field smuggles extra shell tokens. -/
def injectionRegisterInput : RegisterInput :=
  { email := "ops@example.com --eab-kid evil"
    server := "https://acme.example/directory"
    eabKid := "kid1"
    eabHmacKey := "hmac1" }

/-! ### Helper lemmas -/

/-- The descending-sort selection never loses the maximum trailing
number: every candidate's key is at most the selected one's. -/
theorem trailingNumber_le_foldl_pickLatest (ds : List String) :
    ∀ d, ∀ x ∈ d :: ds, trailingNumber x ≤ trailingNumber (ds.foldl pickLatest d) := by
  induction ds with
  | nil =>
    intro d x hx
    simp only [List.mem_singleton] at hx
    simp [hx]
  | cons e es ih =>
    intro d x hx
    have hde : trailingNumber d ≤ trailingNumber (pickLatest d e) := by
      unfold pickLatest
      split <;> omega
    have hee : trailingNumber e ≤ trailingNumber (pickLatest d e) := by
      unfold pickLatest
      split <;> omega
    have hhead : trailingNumber (pickLatest d e)
        ≤ trailingNumber (es.foldl pickLatest (pickLatest d e)) :=
      ih (pickLatest d e) (pickLatest d e) (List.mem_cons_self _ _)
    simp only [List.foldl_cons]
    simp only [List.mem_cons] at hx
    rcases hx with rfl | rfl | hx
    · exact le_trans hde hhead
    · exact le_trans hee hhead
    · exact ih (pickLatest d e) x (List.mem_cons_of_mem _ hx)

/-- The descending-sort selection returns one of the candidates. -/
theorem foldl_pickLatest_mem (ds : List String) :
    ∀ d, ds.foldl pickLatest d ∈ d :: ds := by
  induction ds with
  | nil => intro d; simp
  | cons e es ih =>
    intro d
    have h := ih (pickLatest d e)
    have hpe : pickLatest d e = d ∨ pickLatest d e = e := by
      unfold pickLatest
      split
      · exact Or.inr rfl
      · exact Or.inl rfl
    simp only [List.foldl_cons, List.mem_cons] at h ⊢
    rcases h with h | h
    · rcases hpe with hp | hp
      · exact Or.inl (h.trans hp)
      · exact Or.inr (Or.inl (h.trans hp))
    · exact Or.inr (Or.inr h)

/-! ### Claim C4 -/

/-- C4: `needsRenewal` returns `true` whenever the describe step yields
no certificate info or info without an expiry, for every threshold;
otherwise it returns `true` exactly when the floor of
`(notAfter - now) / 1 day` is at most the threshold. -/
theorem C4_needsRenewal_spec (now thr na : Int) (arn dn : String)
    (st : Option String) :
    needsRenewal none now thr = true ∧
    needsRenewal (some ⟨arn, dn, none, st⟩) now thr = true ∧
    (needsRenewal (some ⟨arn, dn, some na, st⟩) now thr = true ↔
      ⌊((na - now : Int) : ℚ) / ((86400000 : ℕ) : ℚ)⌋ ≤ thr) := by
  refine ⟨rfl, rfl, ?_⟩
  have hb : Int.fdiv (na - now) msPerDay
      = ⌊((na - now : Int) : ℚ) / ((86400000 : ℕ) : ℚ)⌋ := by
    rw [Rat.floor_intCast_div_natCast,
      Int.fdiv_eq_ediv _ (by norm_num [msPerDay])]
    norm_num [msPerDay]
  simp only [needsRenewal, decide_eq_true_eq, hb]

/-! ### Claim C2 -/

/-- C2: the output-path resolver follows the three-tier priority
algorithm.  Tier one: a "saved at" directory parsed from the captured
output is used whenever it exists.  Tier two: otherwise the
deterministic directory named after the primary domain is used when it
exists.  Tier three: otherwise the live root is scanned for
`{domain}` / `{domain}-N` entries; the scan returns a matching entry
whose trailing number is maximal among all matching entries (the
unnumbered directory counting as `-1`), and on the candidate set
`{example.com, example.com-5, example.com-12}` it selects
`example.com-12`. -/
theorem C2_output_path_resolution (configDir pd d : String)
    (od : Option String) (pe : String → Bool) (entries : List String) :
    (pe d = true →
      resolveLiveDir configDir pd (some d) pe entries = .ok d) ∧
    ((od = none ∨ od = some d ∧ pe d = false) →
      pe (configDir ++ "/live/" ++ pd) = true →
      resolveLiveDir configDir pd od pe entries
        = .ok (configDir ++ "/live/" ++ pd)) ∧
    ((od = none ∨ od = some d ∧ pe d = false) →
      pe (configDir ++ "/live/" ++ pd) = false →
      pe (configDir ++ "/live") = true →
      resolveLiveDir configDir pd od pe entries
        = (findLatestCertDir pd entries).map
            (fun name => configDir ++ "/live/" ++ name)) ∧
    (∀ name, findLatestCertDir pd entries = .ok name →
      name ∈ entries ∧ matchesLineagePattern pd name = true ∧
      ∀ e ∈ entries, matchesLineagePattern pd e = true →
        trailingNumber e ≤ trailingNumber name) ∧
    (findLatestCertDir "example.com"
        ["example.com", "example.com-5", "example.com-12"]
        = .ok "example.com-12" ∧
      trailingNumber "example.com" = -1 ∧
      trailingNumber "example.com-5" = 5 ∧
      trailingNumber "example.com-12" = 12) := by
  refine ⟨?_, ?_, ?_, ?_, ⟨rfl, by decide⟩⟩
  · intro hpe
    simp [resolveLiveDir, hpe]
  · intro ho hdef
    rcases ho with ho | ⟨ho, hpd⟩
    · subst ho
      simp [resolveLiveDir, resolveDefaultDir, hdef]
    · subst ho
      simp [resolveLiveDir, resolveDefaultDir, hpd, hdef]
  · intro ho hdef hlive
    rcases ho with ho | ⟨ho, hpd⟩
    · subst ho
      simp [resolveLiveDir, resolveDefaultDir, hdef, hlive]
    · subst ho
      simp [resolveLiveDir, resolveDefaultDir, hpd, hdef, hlive]
  · intro name hname
    unfold findLatestCertDir at hname
    rcases hf : entries.filter (matchesLineagePattern pd) with _ | ⟨d0, ds⟩
    · rw [hf] at hname
      simp at hname
    · rw [hf] at hname
      have hsel : ds.foldl pickLatest d0 = name := Except.ok.inj hname
      have hmem : name ∈ d0 :: ds := hsel ▸ foldl_pickLatest_mem ds d0
      have hmemf : name ∈ entries.filter (matchesLineagePattern pd) := by
        rw [hf]; exact hmem
      refine ⟨(List.mem_filter.mp hmemf).1, (List.mem_filter.mp hmemf).2, ?_⟩
      intro e he hmat
      have hef : e ∈ entries.filter (matchesLineagePattern pd) :=
        List.mem_filter.mpr ⟨he, hmat⟩
      rw [hf] at hef
      exact hsel ▸ trailingNumber_le_foldl_pickLatest ds d0 e hef

/-- Witness for C2: tier one fires on an existing parsed directory; tier
two fires on the deterministic directory; tier three's scan on the
claim's candidate set returns `example.com-12`. -/
theorem C2_output_path_resolution_witness :
    resolveLiveDir "/tmp/certbot/config" "example.com"
        (some "/tmp/certbot/config/live/example.com-3")
        (fun _ => true) [] = .ok "/tmp/certbot/config/live/example.com-3" ∧
    resolveLiveDir "/tmp/certbot/config" "example.com" none
        (fun p => p == "/tmp/certbot/config/live/example.com" ||
          p == "/tmp/certbot/config/live")
        [] = .ok "/tmp/certbot/config/live/example.com" ∧
    findLatestCertDir "example.com"
        ["example.com", "example.com-5", "example.com-12"]
        = .ok "example.com-12" := by
  refine ⟨?_, ?_, ?_⟩
  · exact (C2_output_path_resolution "/tmp/certbot/config" "example.com"
      "/tmp/certbot/config/live/example.com-3" none (fun _ => true) []).1 rfl
  · exact (C2_output_path_resolution "/tmp/certbot/config" "example.com"
      "" none
      (fun p => p == "/tmp/certbot/config/live/example.com" ||
        p == "/tmp/certbot/config/live") []).2.1 (Or.inl rfl) (by decide)
  · exact (C2_output_path_resolution "" "example.com" "" none (fun _ => false)
      ["example.com", "example.com-5", "example.com-12"]).2.2.2.2.1

/-! ### Claim C3 -/

/-- C3 counterexample: the execSync runner variant hands the process
primitive a single space-joined command string, and a register payload
whose email field contains spaces injects an additional token (`evil`)
into the shell's tokenization of that string — while the execFileSync
variant's argument vector keeps the hostile field as one verbatim
element. -/
theorem C3_shell_string_counterexample :
    "evil" ∈ shellSplit (registerCommandString "/tmp/certbot/config"
        "/tmp/certbot/work" "/tmp/certbot/logs" injectionRegisterInput) ∧
    "evil" ∉ registerCommandArgs "/tmp/certbot/config"
        "/tmp/certbot/work" "/tmp/certbot/logs" injectionRegisterInput ∧
    injectionRegisterInput.email ∈ registerCommandArgs "/tmp/certbot/config"
        "/tmp/certbot/work" "/tmp/certbot/logs" injectionRegisterInput := by
  refine ⟨by decide, by decide, by decide⟩

/-- C3 (amended): the execFileSync runner variant passes a literal
argument vector in which every element is either one of the fixed CLI
tokens or the verbatim content of exactly one payload field or working
directory, so no payload field can add tokens to the invocation; the
execSync variant at `src/lambda/src/certbot/runner.ts` instead joins
the tokens into one shell-interpreted string (see the counterexample). -/
theorem C3_argument_vector_amended (cfgD wrkD lgD : String)
    (p : RegisterInput) (q : CertbotParams) (s : String) :
    (s ∈ registerCommandArgs cfgD wrkD lgD p →
      s ∈ ["register", "--non-interactive", "--agree-tos", "-m", "--server",
           "--eab-kid", "--eab-hmac-key", "--config-dir", "--work-dir",
           "--logs-dir"] ∨
      s = p.email ∨ s = p.server ∨ s = p.eabKid ∨ s = p.eabHmacKey ∨
      s = cfgD ∨ s = wrkD ∨ s = lgD) ∧
    (s ∈ buildCertbotCommandArgs cfgD wrkD lgD q →
      s ∈ ["certonly", "--non-interactive", "--agree-tos", "--email",
           "--dns-route53", "--server", "--config-dir", "--work-dir",
           "--logs-dir", "-d", "--preferred-challenges", "dns-01",
           "--key-type", "rsa", "ecdsa", "--rsa-key-size",
           "--force-renewal", "--cert-name"] ∨
      s = q.email ∨ s = q.serverUrl ∨ s ∈ q.domains ∨
      s = toString (q.rsaKeySize.getD 2048) ∨
      (∃ c, q.certName = some c ∧ s = c) ∨
      s = cfgD ∨ s = wrkD ∨ s = lgD) := by
  constructor
  · intro h
    simp only [registerCommandArgs, List.mem_cons, List.not_mem_nil,
      or_false] at h
    rcases h with rfl | rfl | rfl | rfl | rfl | rfl | rfl | rfl | rfl |
      rfl | rfl | rfl | rfl | rfl | rfl | rfl | rfl
    · exact Or.inl (by decide)
    · exact Or.inl (by decide)
    · exact Or.inl (by decide)
    · exact Or.inl (by decide)
    · exact Or.inr (Or.inl rfl)
    · exact Or.inl (by decide)
    · exact Or.inr (Or.inr (Or.inl rfl))
    · exact Or.inl (by decide)
    · exact Or.inr (Or.inr (Or.inr (Or.inl rfl)))
    · exact Or.inl (by decide)
    · exact Or.inr (Or.inr (Or.inr (Or.inr (Or.inl rfl))))
    · exact Or.inl (by decide)
    · exact Or.inr (Or.inr (Or.inr (Or.inr (Or.inr (Or.inl rfl)))))
    · exact Or.inl (by decide)
    · exact Or.inr (Or.inr (Or.inr (Or.inr (Or.inr (Or.inr (Or.inl rfl))))))
    · exact Or.inl (by decide)
    · exact Or.inr (Or.inr (Or.inr (Or.inr (Or.inr (Or.inr (Or.inr rfl))))))
  · intro h
    unfold buildCertbotCommandArgs at h
    rcases List.mem_append.mp h with h | h
    · rcases List.mem_append.mp h with h | h
      · rcases List.mem_append.mp h with h | h
        · rcases List.mem_append.mp h with h | h
          · rcases List.mem_append.mp h with h | h
            · -- the twelve fixed head tokens interleaved with
              -- email/server/dirs
              simp only [List.mem_cons, List.not_mem_nil, or_false] at h
              rcases h with rfl | rfl | rfl | rfl | rfl | rfl | rfl | rfl |
                rfl | rfl | rfl | rfl | rfl | rfl
              · exact Or.inl (by decide)
              · exact Or.inl (by decide)
              · exact Or.inl (by decide)
              · exact Or.inl (by decide)
              · exact Or.inr (Or.inl rfl)
              · exact Or.inl (by decide)
              · exact Or.inl (by decide)
              · exact Or.inr (Or.inr (Or.inl rfl))
              · exact Or.inl (by decide)
              · exact Or.inr (Or.inr (Or.inr (Or.inr (Or.inr (Or.inr
                  (Or.inl rfl))))))
              · exact Or.inl (by decide)
              · exact Or.inr (Or.inr (Or.inr (Or.inr (Or.inr (Or.inr
                  (Or.inr (Or.inl rfl)))))))
              · exact Or.inl (by decide)
              · exact Or.inr (Or.inr (Or.inr (Or.inr (Or.inr (Or.inr
                  (Or.inr (Or.inr rfl)))))))
            · -- the domain arguments
              simp only [List.mem_flatMap] at h
              obtain ⟨d, hd, hsd⟩ := h
              simp only [List.mem_cons, List.not_mem_nil, or_false] at hsd
              rcases hsd with rfl | rfl
              · exact Or.inl (by decide)
              · exact Or.inr (Or.inr (Or.inr (Or.inl hd)))
          · -- preferred-challenges and key-type tokens
            simp only [List.mem_cons, List.not_mem_nil, or_false] at h
            rcases h with rfl | rfl | rfl | rfl
            · exact Or.inl (by decide)
            · exact Or.inl (by decide)
            · exact Or.inl (by decide)
            · rcases hq : q.keyType.getD KeyType.rsa with _ | _ <;>
                exact Or.inl (by decide)
        · -- the rsa-key-size pair
          split at h
          · simp only [List.mem_cons, List.not_mem_nil, or_false] at h
            rcases h with rfl | rfl
            · exact Or.inl (by decide)
            · exact Or.inr (Or.inr (Or.inr (Or.inr (Or.inl rfl))))
          · simp at h
      · -- the force-renewal flag
        split at h
        · simp only [List.mem_cons, List.not_mem_nil, or_false] at h
          subst h
          exact Or.inl (by decide)
        · simp at h
    · -- the cert-name pair
      rcases hc : q.certName with _ | c
      · rw [hc] at h
        simp at h
      · rw [hc] at h
        simp only [List.mem_cons, List.not_mem_nil, or_false] at h
        rcases h with rfl | h
        · exact Or.inl (by decide)
        · exact Or.inr (Or.inr (Or.inr (Or.inr (Or.inr
            (Or.inl ⟨c, rfl, h⟩)))))

/-- Parameters of a representative certonly invocation, used to witness
the argument-vector theorem. -/
def certbotParamsExample : CertbotParams :=
  { domains := ["example.com", "www.example.com"]
    email := "ops@example.com"
    serverUrl := "https://acme.example/directory"
    route53HostedZoneId := "Z123"
    forceRenewal := true
    keyType := some .rsa
    rsaKeySize := some 4096
    certName := some "example.com" }

/-- Witness for C3 (amended), at the hostile register payload and the
representative certonly parameters. -/
theorem C3_argument_vector_witness :
    ("kid1" ∈ ["register", "--non-interactive", "--agree-tos", "-m",
        "--server", "--eab-kid", "--eab-hmac-key", "--config-dir",
        "--work-dir", "--logs-dir"] ∨
      "kid1" = injectionRegisterInput.email ∨
      "kid1" = injectionRegisterInput.server ∨
      "kid1" = injectionRegisterInput.eabKid ∨
      "kid1" = injectionRegisterInput.eabHmacKey ∨
      "kid1" = "/tmp/certbot/config" ∨ "kid1" = "/tmp/certbot/work" ∨
      "kid1" = "/tmp/certbot/logs") ∧
    ("www.example.com" ∈ ["certonly", "--non-interactive", "--agree-tos",
        "--email", "--dns-route53", "--server", "--config-dir",
        "--work-dir", "--logs-dir", "-d", "--preferred-challenges",
        "dns-01", "--key-type", "rsa", "ecdsa", "--rsa-key-size",
        "--force-renewal", "--cert-name"] ∨
      "www.example.com" = certbotParamsExample.email ∨
      "www.example.com" = certbotParamsExample.serverUrl ∨
      "www.example.com" ∈ certbotParamsExample.domains ∨
      "www.example.com" = toString (certbotParamsExample.rsaKeySize.getD 2048) ∨
      (∃ c, certbotParamsExample.certName = some c ∧ "www.example.com" = c) ∨
      "www.example.com" = "/tmp/certbot/config" ∨
      "www.example.com" = "/tmp/certbot/work" ∨
      "www.example.com" = "/tmp/certbot/logs") :=
  ⟨(C3_argument_vector_amended "/tmp/certbot/config" "/tmp/certbot/work"
      "/tmp/certbot/logs" injectionRegisterInput certbotParamsExample "kid1").1
      (by decide),
   (C3_argument_vector_amended "/tmp/certbot/config" "/tmp/certbot/work"
      "/tmp/certbot/logs" injectionRegisterInput certbotParamsExample
      "www.example.com").2 (by decide)⟩

/-! ### Event and per-certificate processing lemmas -/

/-- Whether an event is one of the per-certificate operations (as
opposed to the invocation-level pull, register, push, notify and
cleanup steps). -/
def isCertOp : Ev → Bool
  | .checkRenewal _ => true
  | .obtain _ => true
  | .backup _ => true
  | .importCert _ => true
  | .describeCert _ => true
  | _ => false

/-- Unfolding equation of `processCertificate` for an entry with no
prior ACM ARN. -/
theorem processCertificate_none (env : Env) (cfg : CertificateConfig)
    (dry : Bool) (h : cfg.acmCertificateArn = none) :
    processCertificate env cfg dry = afterDecision env cfg dry := by
  unfold processCertificate
  rw [h]

/-- Unfolding equation of `processCertificate` for an entry with a
prior ACM ARN. -/
theorem processCertificate_some (env : Env) (cfg : CertificateConfig)
    (dry : Bool) (arn : String) (h : cfg.acmCertificateArn = some arn) :
    processCertificate env cfg dry =
      if env.checkFails arn then
        (failureResult cfg (env.checkError arn), [.checkRenewal cfg.id])
      else if env.needsRenewalAns arn then
        ((afterDecision env cfg dry).1,
         .checkRenewal cfg.id :: (afterDecision env cfg dry).2)
      else (notYetDueResult cfg, [.checkRenewal cfg.id]) := by
  unfold processCertificate
  rw [h]

/-- Unfolding equation of `renewLoop` on a non-empty batch. -/
theorem renewLoop_cons (env : Env) (fil : Option (List String)) (dry : Bool)
    (cfg : CertificateConfig) (rest : List CertificateConfig) :
    renewLoop env fil dry (cfg :: rest) =
      if !cfg.enabled then
        (disabledResult cfg :: (renewLoop env fil dry rest).1,
         (renewLoop env fil dry rest).2)
      else if filterExcludes fil cfg.id then renewLoop env fil dry rest
      else ((processCertificate env cfg dry).1 :: (renewLoop env fil dry rest).1,
            (processCertificate env cfg dry).2 ++ (renewLoop env fil dry rest).2) :=
  rfl

/-- Every event of the action part is a per-certificate operation. -/
theorem afterDecision_events_certOp (env : Env) (cfg : CertificateConfig)
    (dry : Bool) : ∀ e ∈ (afterDecision env cfg dry).2, isCertOp e = true := by
  unfold afterDecision
  split_ifs <;> intro e he <;> fin_cases he <;> rfl

/-- Every event of `processCertificate` is a per-certificate operation. -/
theorem processCertificate_events_certOp (env : Env) (cfg : CertificateConfig)
    (dry : Bool) : ∀ e ∈ (processCertificate env cfg dry).2, isCertOp e = true := by
  intro e he
  rcases hc : cfg.acmCertificateArn with _ | arn
  · rw [processCertificate_none env cfg dry hc] at he
    exact afterDecision_events_certOp env cfg dry e he
  · rw [processCertificate_some env cfg dry arn hc] at he
    split_ifs at he
    · fin_cases he <;> rfl
    · simp only [List.mem_cons] at he
      rcases he with rfl | he
      · rfl
      · exact afterDecision_events_certOp env cfg dry e he
    · fin_cases he <;> rfl

/-- Every event of the renew loop is a per-certificate operation: the
loop performs no pull, push or register step of its own. -/
theorem renewLoop_events_certOp (env : Env) (fil : Option (List String))
    (dry : Bool) (certs : List CertificateConfig) :
    ∀ e ∈ (renewLoop env fil dry certs).2, isCertOp e = true := by
  induction certs with
  | nil => intro e he; simp [renewLoop] at he
  | cons c rest ih =>
    intro e he
    rw [renewLoop_cons] at he
    split_ifs at he
    · exact ih e he
    · exact ih e he
    · rcases List.mem_append.mp he with h | h
      · exact processCertificate_events_certOp env c dry e h
      · exact ih e h

/-- The action part labels its result with the entry's id. -/
theorem afterDecision_result_id (env : Env) (cfg : CertificateConfig)
    (dry : Bool) : (afterDecision env cfg dry).1.certificateId = cfg.id := by
  unfold afterDecision
  split_ifs <;> rfl

/-- `processCertificate` labels its result with the entry's id. -/
theorem processCertificate_result_id (env : Env) (cfg : CertificateConfig)
    (dry : Bool) : (processCertificate env cfg dry).1.certificateId = cfg.id := by
  rcases hc : cfg.acmCertificateArn with _ | arn
  · rw [processCertificate_none env cfg dry hc]
    exact afterDecision_result_id env cfg dry
  · rw [processCertificate_some env cfg dry arn hc]
    split_ifs
    · rfl
    · exact afterDecision_result_id env cfg dry
    · rfl

/-- An obtain event of the action part names the entry being processed,
and only occurs outside dry-run mode. -/
theorem obtain_mem_afterDecision (env : Env) (cfg : CertificateConfig)
    (dry : Bool) (id : String) :
    Ev.obtain id ∈ (afterDecision env cfg dry).2 →
      id = cfg.id ∧ dry = false := by
  unfold afterDecision
  split_ifs with hdry h2 h3 h4 h5 <;> intro h
  · exact absurd h (List.not_mem_nil _)
  · exact ⟨by simpa using h, by simpa using hdry⟩
  · refine ⟨?_, by simpa using hdry⟩
    simp only [List.mem_cons, List.not_mem_nil, or_false] at h
    rcases h with h | h <;> simpa using h
  · refine ⟨?_, by simpa using hdry⟩
    simp only [List.mem_cons, List.not_mem_nil, or_false] at h
    rcases h with h | h | h <;> simpa using h
  · refine ⟨?_, by simpa using hdry⟩
    simp only [List.mem_cons, List.not_mem_nil, or_false] at h
    rcases h with h | h | h | h <;> simpa using h
  · refine ⟨?_, by simpa using hdry⟩
    simp only [List.mem_cons, List.not_mem_nil, or_false] at h
    rcases h with h | h | h | h <;> simpa using h

/-- An obtain event of `processCertificate` names the entry being
processed and only occurs outside dry-run mode. -/
theorem obtain_mem_processCertificate (env : Env) (cfg : CertificateConfig)
    (dry : Bool) (id : String) :
    Ev.obtain id ∈ (processCertificate env cfg dry).2 →
      id = cfg.id ∧ dry = false := by
  intro h
  rcases hc : cfg.acmCertificateArn with _ | arn
  · rw [processCertificate_none env cfg dry hc] at h
    exact obtain_mem_afterDecision env cfg dry id h
  · rw [processCertificate_some env cfg dry arn hc] at h
    split_ifs at h
    · simp at h
    · simp only [List.mem_cons] at h
      rcases h with h | h
      · simp at h
      · exact obtain_mem_afterDecision env cfg dry id h
    · simp at h

/-- Every result of the renew loop is labelled by the id of some entry
of the batch. -/
theorem renewLoop_results_ids (env : Env) (fil : Option (List String))
    (dry : Bool) (certs : List CertificateConfig) :
    ∀ r ∈ (renewLoop env fil dry certs).1,
      ∃ c ∈ certs, r.certificateId = c.id := by
  induction certs with
  | nil => intro r hr; simp [renewLoop] at hr
  | cons c rest ih =>
    intro r hr
    rw [renewLoop_cons] at hr
    split_ifs at hr
    · rcases List.mem_cons.mp hr with rfl | hr
      · exact ⟨c, List.mem_cons_self _ _, rfl⟩
      · rcases ih r hr with ⟨c', hc', hid⟩
        exact ⟨c', List.mem_cons_of_mem _ hc', hid⟩
    · rcases ih r hr with ⟨c', hc', hid⟩
      exact ⟨c', List.mem_cons_of_mem _ hc', hid⟩
    · rcases List.mem_cons.mp hr with rfl | hr
      · exact ⟨c, List.mem_cons_self _ _, processCertificate_result_id env c dry⟩
      · rcases ih r hr with ⟨c', hc', hid⟩
        exact ⟨c', List.mem_cons_of_mem _ hc', hid⟩

/-- An obtain event of the renew loop can only come from an enabled,
filter-included entry of the batch, and only outside dry-run mode. -/
theorem renewLoop_obtain_source (env : Env) (fil : Option (List String))
    (dry : Bool) (certs : List CertificateConfig) (id : String) :
    Ev.obtain id ∈ (renewLoop env fil dry certs).2 →
      (∃ c ∈ certs, c.id = id ∧ c.enabled = true ∧
        filterExcludes fil c.id = false) ∧ dry = false := by
  induction certs with
  | nil => intro h; simp [renewLoop] at h
  | cons c rest ih =>
    intro h
    rw [renewLoop_cons] at h
    split_ifs at h with hen hfil
    · rcases ih h with ⟨⟨c', hc', hprop⟩, hdry⟩
      exact ⟨⟨c', List.mem_cons_of_mem _ hc', hprop⟩, hdry⟩
    · rcases ih h with ⟨⟨c', hc', hprop⟩, hdry⟩
      exact ⟨⟨c', List.mem_cons_of_mem _ hc', hprop⟩, hdry⟩
    · rcases List.mem_append.mp h with h | h
      · obtain ⟨hid, hdry⟩ := obtain_mem_processCertificate env c dry id h
        refine ⟨⟨c, List.mem_cons_self _ _, hid.symm, ?_, ?_⟩, hdry⟩
        · simpa using hen
        · simpa using hfil
      · rcases ih h with ⟨⟨c', hc', hprop⟩, hdry⟩
        exact ⟨⟨c', List.mem_cons_of_mem _ hc', hprop⟩, hdry⟩

/-- Characterization of the results a given entry contributes to a
renew pass, assuming the document invariant that ids are unique: a
disabled entry contributes exactly its "disabled" skip record (whether
or not the id filter would exclude it — the disabled check runs first);
an enabled entry excluded by the filter contributes nothing; any other
entry contributes exactly its `processCertificate` result. -/
theorem renewLoop_filter_by_id (env : Env) (fil : Option (List String))
    (dry : Bool) (certs : List CertificateConfig) (cfg : CertificateConfig)
    (hmem : cfg ∈ certs) (huniq : idsUnique certs) :
    ((renewLoop env fil dry certs).1.filter
        (fun r => r.certificateId == cfg.id))
      = (if !cfg.enabled then [disabledResult cfg]
         else if filterExcludes fil cfg.id then []
         else [(processCertificate env cfg dry).1]) := by
  induction certs with
  | nil => simp at hmem
  | cons c rest ih =>
    have hnodup := huniq
    unfold idsUnique at hnodup
    simp only [List.map_cons, List.nodup_cons] at hnodup
    have hnotin : c.id ∉ rest.map (fun x => x.id) := hnodup.1
    have huniq' : idsUnique rest := hnodup.2
    rw [renewLoop_cons]
    rcases List.mem_cons.mp hmem with rfl | hmem'
    · -- the entry under scrutiny is the head of the batch
      have htail : (renewLoop env fil dry rest).1.filter
          (fun r => r.certificateId == cfg.id) = [] := by
        rw [List.filter_eq_nil]
        intro r hr
        rcases renewLoop_results_ids env fil dry rest r hr with ⟨c', hc', hid⟩
        simp only [beq_iff_eq]
        intro hEq
        apply hnotin
        rw [← hEq, hid]
        exact List.mem_map_of_mem _ hc'
      split_ifs with hen hfil
      · simp only [List.filter_cons, beq_self_eq_true, if_pos, htail]
        simp [disabledResult]
      · exact htail
      · simp only [List.filter_cons, htail]
        rw [if_pos]
        simp only [beq_iff_eq]
        exact processCertificate_result_id env cfg dry
    · -- the entry under scrutiny sits in the tail of the batch
      have hne : c.id ≠ cfg.id := by
        intro hEq
        apply hnotin
        rw [hEq]
        exact List.mem_map_of_mem _ hmem'
      have ihr := ih hmem' huniq'
      by_cases hen : (!c.enabled) = true
      · rw [if_pos hen]
        simp only [List.filter_cons]
        rw [if_neg (by simp [disabledResult, hne])]
        exact ihr
      · rw [if_neg hen]
        by_cases hfil : filterExcludes fil c.id = true
        · rw [if_pos hfil]
          exact ihr
        · rw [if_neg hfil]
          simp only [List.filter_cons]
          rw [if_neg (by simp [processCertificate_result_id env c dry, hne])]
          exact ihr

/-- Every eligible entry of a batch contributes a result labelled with
its id (regardless of whether other entries fail). -/
theorem renewLoop_mem_result (env : Env) (fil : Option (List String))
    (dry : Bool) (certs : List CertificateConfig) (cfg : CertificateConfig)
    (hmem : cfg ∈ certs) (hen : cfg.enabled = true)
    (hfil : filterExcludes fil cfg.id = false) :
    ∃ r ∈ (renewLoop env fil dry certs).1, r.certificateId = cfg.id := by
  induction certs with
  | nil => simp at hmem
  | cons c rest ih =>
    rw [renewLoop_cons]
    rcases List.mem_cons.mp hmem with rfl | hmem'
    · rw [if_neg (by simp [hen]), if_neg (by simp [hfil])]
      exact ⟨(processCertificate env cfg dry).1,
        List.mem_cons_self _ _, processCertificate_result_id env cfg dry⟩
    · rcases ih hmem' with ⟨r, hr, hid⟩
      split_ifs
      · exact ⟨r, List.mem_cons_of_mem _ hr, hid⟩
      · exact ⟨r, hr, hid⟩
      · exact ⟨r, List.mem_cons_of_mem _ hr, hid⟩

/-- The three summary counters over-count by exactly the number of
results marked both successful and skipped (which in renew mode are the
dry-run results). -/
theorem counts_sum (rs : List RenewalResult) :
    countSuccess rs + countFailed rs + countSkipped rs
      = rs.length + (rs.filter (fun r => r.success && r.skipped)).length := by
  induction rs with
  | nil => rfl
  | cons r rest ih =>
    unfold countSuccess countFailed countSkipped at ih ⊢
    cases hs : r.success <;> cases hk : r.skipped <;>
      simp only [List.filter_cons, hs, hk, Bool.not_true, Bool.not_false,
        Bool.and_self, Bool.and_true, Bool.and_false, Bool.true_and,
        Bool.false_and, if_true, if_false, List.length_cons,
        Bool.false_eq_true, if_neg, ite_false, ite_true] <;>
      omega

/-- A result of the action part that is both successful and skipped can
only be the dry-run record. -/
theorem afterDecision_success_skipped (env : Env) (cfg : CertificateConfig)
    (dry : Bool) :
    (afterDecision env cfg dry).1.success = true →
    (afterDecision env cfg dry).1.skipped = true →
    (afterDecision env cfg dry).1 = dryRunResult cfg := by
  unfold afterDecision
  split_ifs <;> intro h1 h2
  · rfl
  · simp [failureResult] at h1
  · simp [failureResult] at h1
  · simp [failureResult] at h1
  · simp [failureResult] at h1
  · simp [successResult] at h2

/-- A result of `processCertificate` that is both successful and skipped
can only be the dry-run record. -/
theorem processCertificate_success_skipped (env : Env)
    (cfg : CertificateConfig) (dry : Bool) :
    (processCertificate env cfg dry).1.success = true →
    (processCertificate env cfg dry).1.skipped = true →
    (processCertificate env cfg dry).1 = dryRunResult cfg := by
  rcases hc : cfg.acmCertificateArn with _ | arn
  · rw [processCertificate_none env cfg dry hc]
    exact afterDecision_success_skipped env cfg dry
  · rw [processCertificate_some env cfg dry arn hc]
    split_ifs <;> intro h1 h2
    · simp [failureResult] at h1
    · exact afterDecision_success_skipped env cfg dry h1 h2
    · simp [notYetDueResult] at h1

/-- A renew-loop result that is both successful and skipped carries the
dry-run skip reason. -/
theorem renewLoop_success_skipped (env : Env) (fil : Option (List String))
    (dry : Bool) (certs : List CertificateConfig) :
    ∀ r ∈ (renewLoop env fil dry certs).1,
      r.success = true → r.skipped = true →
      r.skipReason = some "Dry run mode - no actual changes made" := by
  induction certs with
  | nil => intro r hr; simp [renewLoop] at hr
  | cons c rest ih =>
    intro r hr h1 h2
    rw [renewLoop_cons] at hr
    split_ifs at hr
    · rcases List.mem_cons.mp hr with rfl | hr
      · simp [disabledResult] at h1
      · exact ih r hr h1 h2
    · exact ih r hr h1 h2
    · rcases List.mem_cons.mp hr with rfl | hr
      · rw [processCertificate_success_skipped env c dry h1 h2]
        rfl
      · exact ih r hr h1 h2

/-! ### Claim C1 -/

/-- C1 counterexample: in register mode, when the certbot registration
raises, the state push is not executed — the push does not sit in a
guaranteed-execution block (only cleanup does), contradicting the claim
that the push runs even when an issuance/registration operation raises. -/
theorem C1_push_not_guaranteed_counterexample :
    Ev.register ∈ (handleRegisterMode false true false).2 ∧
    Ev.push ∉ (handleRegisterMode false true false).2 ∧
    Ev.cleanup ∈ (handleRegisterMode false true false).2 := by
  refine ⟨by decide, by decide, by decide⟩

/-- C1 (amended): within one invocation the pull precedes every
issuance/registration operation, and the push follows all of them — on
the success path of register mode, and in renew mode whenever the
batch-level pull and push steps themselves succeed, even when
individual certificate operations fail (their exceptions are caught at
the per-certificate boundary).  The push is not in a
guaranteed-execution block: a batch-level exception ends the invocation
without it (see the counterexample); only cleanup is guaranteed. -/
theorem C1_pull_before_operations_push_after (env : Env)
    (certs : List CertificateConfig) (fil : Option (List String))
    (dry : Bool) (hpull : env.pullFails = false)
    (hpush : env.pushFails = false) :
    (handleRenewMode env (.ok certs) fil dry).2
      = .pull :: (renewLoop env fil dry certs).2
          ++ [.push, .notifySummary, .cleanup] ∧
    (∀ e ∈ (renewLoop env fil dry certs).2, isCertOp e = true) ∧
    isCertOp .pull = false ∧ isCertOp .push = false ∧
    isCertOp .register = false ∧
    (handleRegisterMode false false false).2
      = [.pull, .register, .push, .notifySuccess, .cleanup] := by
  refine ⟨?_, renewLoop_events_certOp env fil dry certs, rfl, rfl, rfl, rfl⟩
  unfold handleRenewMode
  rw [hpull]
  simp only [Bool.false_eq_true, if_false, hpush]

/-- Witness for C1 (amended) at the scenario-D oracle and batch (where
one certificate's obtain raises and the others succeed). -/
theorem C1_pull_push_witness :
    (handleRenewMode scenarioDEnv (.ok scenarioDCerts) none false).2
      = .pull :: (renewLoop scenarioDEnv none false scenarioDCerts).2
          ++ [.push, .notifySummary, .cleanup] ∧
    (∀ e ∈ (renewLoop scenarioDEnv none false scenarioDCerts).2,
      isCertOp e = true) ∧
    isCertOp .pull = false ∧ isCertOp .push = false ∧
    isCertOp .register = false ∧
    (handleRegisterMode false false false).2
      = [.pull, .register, .push, .notifySuccess, .cleanup] :=
  C1_pull_before_operations_push_after scenarioDEnv scenarioDCerts none
    false rfl rfl

/-! ### Claim C5 -/

/-- C5: an exception in any step of one certificate's processing
(renewal check, obtain, backup, import, describe) is caught at the
per-certificate boundary and converted into a failure record carrying
the error message, and every other eligible entry of the batch still
contributes its own result; concretely, in a batch of three enabled
entries where exactly entry `b`'s obtain raises, all three are
processed and the aggregate counts are `totalProcessed = 3`,
`totalFailed = 1`, `totalSuccess = 2`. -/
theorem C5_per_certificate_failure_isolation (env : Env)
    (fil : Option (List String)) (dry : Bool)
    (certs : List CertificateConfig) (cfg : CertificateConfig)
    (hmem : cfg ∈ certs) (hen : cfg.enabled = true)
    (hfil : filterExcludes fil cfg.id = false) :
    (∃ r ∈ (renewLoop env fil dry certs).1, r.certificateId = cfg.id) ∧
    (cfg.acmCertificateArn = none → dry = false →
      env.obtainFails cfg.id = true →
      (processCertificate env cfg dry).1
        = failureResult cfg (env.obtainError cfg.id)) ∧
    (cfg.acmCertificateArn = none → dry = false →
      env.obtainFails cfg.id = false → env.backupFails cfg.id = true →
      (processCertificate env cfg dry).1
        = failureResult cfg (env.backupError cfg.id)) ∧
    (cfg.acmCertificateArn = none → dry = false →
      env.obtainFails cfg.id = false → env.backupFails cfg.id = false →
      env.importFails cfg.id = true →
      (processCertificate env cfg dry).1
        = failureResult cfg (env.importError cfg.id)) ∧
    (cfg.acmCertificateArn = none → dry = false →
      env.obtainFails cfg.id = false → env.backupFails cfg.id = false →
      env.importFails cfg.id = false →
      env.descFails (env.importArn cfg.id) = true →
      (processCertificate env cfg dry).1
        = failureResult cfg (env.descError (env.importArn cfg.id))) ∧
    ((handleRenewMode scenarioDEnv (.ok scenarioDCerts) none false).1.totalProcessed
        = 3 ∧
      (handleRenewMode scenarioDEnv (.ok scenarioDCerts) none false).1.totalFailed
        = 1 ∧
      (handleRenewMode scenarioDEnv (.ok scenarioDCerts) none false).1.totalSuccess
        = 2) := by
  refine ⟨renewLoop_mem_result env fil dry certs cfg hmem hen hfil,
    ?_, ?_, ?_, ?_, by decide, by decide, by decide⟩
  · intro hc hdry hob
    rw [processCertificate_none env cfg dry hc]
    unfold afterDecision
    rw [hdry, hob]
    simp
  · intro hc hdry hob hbk
    rw [processCertificate_none env cfg dry hc]
    unfold afterDecision
    rw [hdry, hob, hbk]
    simp
  · intro hc hdry hob hbk him
    rw [processCertificate_none env cfg dry hc]
    unfold afterDecision
    rw [hdry, hob, hbk, him]
    simp
  · intro hc hdry hob hbk him hde
    rw [processCertificate_none env cfg dry hc]
    unfold afterDecision
    rw [hdry, hob, hbk, him, hde]
    simp

/-- Witness for C5 at the scenario-D oracle and batch, taking the
failing entry `b` itself as the eligible entry. -/
theorem C5_failure_isolation_witness :
    (∃ r ∈ (renewLoop scenarioDEnv none false scenarioDCerts).1,
      r.certificateId = (sampleEntry "b").id) ∧
    ((sampleEntry "b").acmCertificateArn = none → false = false →
      scenarioDEnv.obtainFails (sampleEntry "b").id = true →
      (processCertificate scenarioDEnv (sampleEntry "b") false).1
        = failureResult (sampleEntry "b")
            (scenarioDEnv.obtainError (sampleEntry "b").id)) ∧
    ((sampleEntry "b").acmCertificateArn = none → false = false →
      scenarioDEnv.obtainFails (sampleEntry "b").id = false →
      scenarioDEnv.backupFails (sampleEntry "b").id = true →
      (processCertificate scenarioDEnv (sampleEntry "b") false).1
        = failureResult (sampleEntry "b")
            (scenarioDEnv.backupError (sampleEntry "b").id)) ∧
    ((sampleEntry "b").acmCertificateArn = none → false = false →
      scenarioDEnv.obtainFails (sampleEntry "b").id = false →
      scenarioDEnv.backupFails (sampleEntry "b").id = false →
      scenarioDEnv.importFails (sampleEntry "b").id = true →
      (processCertificate scenarioDEnv (sampleEntry "b") false).1
        = failureResult (sampleEntry "b")
            (scenarioDEnv.importError (sampleEntry "b").id)) ∧
    ((sampleEntry "b").acmCertificateArn = none → false = false →
      scenarioDEnv.obtainFails (sampleEntry "b").id = false →
      scenarioDEnv.backupFails (sampleEntry "b").id = false →
      scenarioDEnv.importFails (sampleEntry "b").id = false →
      scenarioDEnv.descFails
        (scenarioDEnv.importArn (sampleEntry "b").id) = true →
      (processCertificate scenarioDEnv (sampleEntry "b") false).1
        = failureResult (sampleEntry "b")
            (scenarioDEnv.descError
              (scenarioDEnv.importArn (sampleEntry "b").id))) ∧
    ((handleRenewMode scenarioDEnv (.ok scenarioDCerts) none false).1.totalProcessed
        = 3 ∧
      (handleRenewMode scenarioDEnv (.ok scenarioDCerts) none false).1.totalFailed
        = 1 ∧
      (handleRenewMode scenarioDEnv (.ok scenarioDCerts) none false).1.totalSuccess
        = 2) :=
  C5_per_certificate_failure_isolation scenarioDEnv none false
    scenarioDCerts (sampleEntry "b") (by decide) (by decide) (by decide)

/-! ### Claim C6 -/

/-- C6: under the document invariant of unique ids, a disabled entry
contributes exactly one skipped record with the "disabled" reason —
whether or not the caller-supplied id filter would exclude it, because
the disabled check runs before the filter check — and the issuance tool
is never invoked for it; an enabled entry excluded by the filter is
passed over silently, contributing no record at all. -/
theorem C6_disabled_entries_skipped (env : Env)
    (fil : Option (List String)) (dry : Bool)
    (certs : List CertificateConfig) (cfg : CertificateConfig)
    (hmem : cfg ∈ certs) (huniq : idsUnique certs) :
    (cfg.enabled = false →
      ((renewLoop env fil dry certs).1.filter
          (fun r => r.certificateId == cfg.id))
        = [disabledResult cfg]) ∧
    (cfg.enabled = false → Ev.obtain cfg.id ∉ (renewLoop env fil dry certs).2) ∧
    (cfg.enabled = true → filterExcludes fil cfg.id = true →
      ((renewLoop env fil dry certs).1.filter
          (fun r => r.certificateId == cfg.id)) = []) ∧
    (disabledResult cfg).skipped = true ∧
    (disabledResult cfg).skipReason
      = some "Certificate is disabled in configuration" := by
  refine ⟨?_, ?_, ?_, rfl, rfl⟩
  · intro hen
    rw [renewLoop_filter_by_id env fil dry certs cfg hmem huniq]
    rw [if_pos (by simp [hen])]
  · intro hen hobt
    obtain ⟨⟨c', hc', hid, hen', _⟩, _⟩ :=
      renewLoop_obtain_source env fil dry certs cfg.id hobt
    have : c' = cfg := by
      unfold idsUnique at huniq
      exact List.inj_on_of_nodup_map huniq hc' hmem hid
    rw [this] at hen'
    rw [hen] at hen'
    cases hen'
  · intro hen hfil
    rw [renewLoop_filter_by_id env fil dry certs cfg hmem huniq]
    rw [if_neg (by simp [hen]), if_pos hfil]

/-- A disabled entry alongside an enabled one, used to witness C6. -/
def disabledEntry : CertificateConfig :=
  { sampleEntry "d" with enabled := false }

/-- Witness for C6 on a two-entry batch whose first entry is disabled,
with a filter that also excludes it (showing the disabled check wins)
and excludes nothing else. -/
theorem C6_disabled_entries_witness :
    (disabledEntry.enabled = false →
      ((renewLoop benignEnv (some ["a"]) false [disabledEntry, sampleEntry "a"]).1.filter
          (fun r => r.certificateId == disabledEntry.id))
        = [disabledResult disabledEntry]) ∧
    (disabledEntry.enabled = false →
      Ev.obtain disabledEntry.id
        ∉ (renewLoop benignEnv (some ["a"]) false
            [disabledEntry, sampleEntry "a"]).2) ∧
    (disabledEntry.enabled = true →
      filterExcludes (some ["a"]) disabledEntry.id = true →
      ((renewLoop benignEnv (some ["a"]) false [disabledEntry, sampleEntry "a"]).1.filter
          (fun r => r.certificateId == disabledEntry.id)) = []) ∧
    (disabledResult disabledEntry).skipped = true ∧
    (disabledResult disabledEntry).skipReason
      = some "Certificate is disabled in configuration" :=
  C6_disabled_entries_skipped benignEnv (some ["a"]) false
    [disabledEntry, sampleEntry "a"] disabledEntry (by decide) (by decide)

/-! ### Claim C7 -/

/-- C7: a dry-run renew pass never emits an obtain event — the issuance
tool is not invoked for any entry, including entries due for renewal —
and every due entry (one with no prior ARN, or whose renewal check
succeeds and answers "due") yields the dry-run record, which has
`success = true`, `skipped = true` and the dry-run skip reason. -/
theorem C7_dry_run_no_obtain (env : Env) (fil : Option (List String))
    (certs : List CertificateConfig) (cfg : CertificateConfig) :
    (∀ id, Ev.obtain id ∉ (renewLoop env fil true certs).2) ∧
    (cfg.acmCertificateArn = none →
      (processCertificate env cfg true).1 = dryRunResult cfg) ∧
    (∀ arn, cfg.acmCertificateArn = some arn →
      env.checkFails arn = false → env.needsRenewalAns arn = true →
      (processCertificate env cfg true).1 = dryRunResult cfg) ∧
    (dryRunResult cfg).success = true ∧
    (dryRunResult cfg).skipped = true ∧
    (dryRunResult cfg).skipReason
      = some "Dry run mode - no actual changes made" := by
  refine ⟨?_, ?_, ?_, rfl, rfl, rfl⟩
  · intro id hobt
    obtain ⟨_, hdry⟩ := renewLoop_obtain_source env fil true certs id hobt
    cases hdry
  · intro hc
    rw [processCertificate_none env cfg true hc]
    unfold afterDecision
    rw [if_pos rfl]
  · intro arn hc hchk hans
    rw [processCertificate_some env cfg true arn hc]
    rw [if_neg (by simp [hchk]), if_pos hans]
    unfold afterDecision
    rw [if_pos rfl]

/-- Witness for C7 at the benign oracle (every entry due) on the
scenario-D batch and an entry with a prior ARN that is due. -/
theorem C7_dry_run_witness :
    (∀ id, Ev.obtain id ∉ (renewLoop benignEnv none true scenarioDCerts).2) ∧
    (existingManualEntry.acmCertificateArn = none →
      (processCertificate benignEnv existingManualEntry true).1
        = dryRunResult existingManualEntry) ∧
    (∀ arn, existingManualEntry.acmCertificateArn = some arn →
      benignEnv.checkFails arn = false →
      benignEnv.needsRenewalAns arn = true →
      (processCertificate benignEnv existingManualEntry true).1
        = dryRunResult existingManualEntry) ∧
    (dryRunResult existingManualEntry).success = true ∧
    (dryRunResult existingManualEntry).skipped = true ∧
    (dryRunResult existingManualEntry).skipReason
      = some "Dry run mode - no actual changes made" :=
  C7_dry_run_no_obtain benignEnv none scenarioDCerts existingManualEntry

/-! ### Claim C8 -/

/-- C8 counterexample: starting from a configuration document that
already holds the entry a previous manual acquisition for `example.com`
created (id `manual-example-com`), the unconditional append performed by
a successful certonly invocation for the same primary domain produces a
document whose ids are no longer pairwise distinct. -/
theorem C8_duplicate_id_counterexample :
    ¬ idsUnique (certonlyAppend [existingManualEntry]
        certonlyPayloadExample "arn:aws:acm:new") ∧
    idsUnique [existingManualEntry] ∧
    (newCertEntry certonlyPayloadExample "arn:aws:acm:new").id
      = existingManualEntry.id := by
  refine ⟨by decide, by decide, by decide⟩

/-- C8 (amended): the certonly append preserves the uniqueness of entry
ids exactly when the generated id `manual-<sanitized primary domain>` is
not already present in the document; the handler performs no such
check, so a repeated acquisition for the same primary domain duplicates
the id (see the counterexample). -/
theorem C8_id_uniqueness_amended (certificates : List CertificateConfig)
    (payload : CertonlyInput) (arn : String)
    (h1 : idsUnique certificates)
    (h2 : mkManualCertId (payload.domains.headD "")
      ∉ certificates.map (fun c => c.id)) :
    idsUnique (certonlyAppend certificates payload arn) := by
  unfold idsUnique certonlyAppend
  rw [List.map_append]
  rw [List.nodup_append]
  refine ⟨h1, by simp, ?_⟩
  intro x hx
  simp only [List.map_cons, List.map_nil, List.mem_singleton]
  intro hEq
  apply h2
  have hid : (newCertEntry payload arn).id
      = mkManualCertId (payload.domains.headD "") := rfl
  rw [hEq, hid] at hx
  exact hx

/-- Witness for C8 (amended): appending to a document that does not yet
hold a `manual-example-com` entry keeps ids unique. -/
theorem C8_id_uniqueness_witness :
    idsUnique (certonlyAppend [sampleEntry "a"] certonlyPayloadExample
      "arn:aws:acm:new") :=
  C8_id_uniqueness_amended [sampleEntry "a"] certonlyPayloadExample
    "arn:aws:acm:new" (by decide) (by decide)

/-! ### Claim C9 -/

/-- C9 counterexample: a renew invocation whose configuration document
downloads and parses successfully can still answer 500 — here the final
account-state push raises after the single entry was processed — so a
successfully parsed configuration does not by itself guarantee a 200
response. -/
theorem C9_statusCode_counterexample :
    (handleRenewMode pushFailEnv (.ok [sampleEntry "a"]) none false).1.statusCode
      = 500 ∧
    (handleRenewMode pushFailEnv (.ok [sampleEntry "a"]) none false).1.totalProcessed
      = 1 ∧
    (handleRenewMode pushFailEnv (.ok [sampleEntry "a"]) none false).1.totalFailed
      = 0 := by
  refine ⟨by decide, by decide, by decide⟩

/-- C9 (amended): when the batch-level steps succeed (the configuration
document downloads and parses, and the account-state pull and push do
not raise), the renew response is 200 for every oracle — in particular
regardless of how many per-certificate results are failures — while a
failed download/parse yields 500. -/
theorem C9_statusCode_amended (env : Env)
    (certs : List CertificateConfig) (fil : Option (List String))
    (dry : Bool) (hpull : env.pullFails = false)
    (hpush : env.pushFails = false) :
    (handleRenewMode env (.ok certs) fil dry).1.statusCode = 200 ∧
    (∀ e, (handleRenewMode env (.error e) fil dry).1.statusCode = 500) := by
  constructor
  · unfold handleRenewMode
    rw [hpull]
    simp only [Bool.false_eq_true, if_false, hpush]
    rfl
  · intro e
    rfl

/-- Witness for C9 (amended) at the scenario-D oracle, whose batch
contains one failing certificate yet still answers 200. -/
theorem C9_statusCode_witness :
    (handleRenewMode scenarioDEnv (.ok scenarioDCerts) none false).1.statusCode
      = 200 ∧
    (∀ e, (handleRenewMode scenarioDEnv (.error e) none false).1.statusCode
      = 500) :=
  C9_statusCode_amended scenarioDEnv scenarioDCerts none false rfl rfl

/-! ### Claim C10 -/

/-- C10: in every renew response, `totalProcessed` equals the number of
emitted results, while the three counters `totalSuccess`, `totalFailed`
and `totalSkipped` together over-count `totalProcessed` by exactly the
number of results marked both successful and skipped; such results are
precisely the dry-run records (they carry the dry-run skip reason), so
whenever at least one dry-run result is present the three counters do
not partition `totalProcessed`. -/
theorem C10_dry_run_double_count (env : Env)
    (configDoc : Except String (List CertificateConfig))
    (fil : Option (List String)) (dry : Bool) :
    (handleRenewMode env configDoc fil dry).1.totalProcessed
      = (handleRenewMode env configDoc fil dry).1.results.length ∧
    (handleRenewMode env configDoc fil dry).1.totalSuccess
        + (handleRenewMode env configDoc fil dry).1.totalFailed
        + (handleRenewMode env configDoc fil dry).1.totalSkipped
      = (handleRenewMode env configDoc fil dry).1.totalProcessed
        + ((handleRenewMode env configDoc fil dry).1.results.filter
            (fun r => r.success && r.skipped)).length ∧
    (∀ r ∈ (handleRenewMode env configDoc fil dry).1.results,
      r.success = true → r.skipped = true →
      r.skipReason = some "Dry run mode - no actual changes made") ∧
    (0 < ((handleRenewMode env configDoc fil dry).1.results.filter
            (fun r => r.success && r.skipped)).length →
      (handleRenewMode env configDoc fil dry).1.totalProcessed
        < (handleRenewMode env configDoc fil dry).1.totalSuccess
            + (handleRenewMode env configDoc fil dry).1.totalFailed
            + (handleRenewMode env configDoc fil dry).1.totalSkipped) := by
  have main : ∀ rs : List RenewalResult, ∀ status msg,
      (mkSummaryResponse status msg rs).totalProcessed
        = (mkSummaryResponse status msg rs).results.length ∧
      (mkSummaryResponse status msg rs).totalSuccess
          + (mkSummaryResponse status msg rs).totalFailed
          + (mkSummaryResponse status msg rs).totalSkipped
        = (mkSummaryResponse status msg rs).totalProcessed
          + ((mkSummaryResponse status msg rs).results.filter
              (fun r => r.success && r.skipped)).length := by
    intro rs status msg
    exact ⟨rfl, counts_sum rs⟩
  have hshape : ∀ r ∈ (handleRenewMode env configDoc fil dry).1.results,
      r.success = true → r.skipped = true →
      r.skipReason = some "Dry run mode - no actual changes made" := by
    intro r hr
    rcases configDoc with e | certs
    · simp [handleRenewMode, mkSummaryResponse] at hr
    · simp only [handleRenewMode] at hr
      by_cases hp : env.pullFails = true
      · rw [if_pos hp] at hr
        simp [mkSummaryResponse] at hr
      · rw [if_neg hp] at hr
        by_cases hq : env.pushFails = true <;>
          [rw [if_pos hq] at hr; rw [if_neg hq] at hr] <;>
          exact renewLoop_success_skipped env fil dry certs r hr
  refine ⟨?_, ?_, hshape, ?_⟩
  · rcases configDoc with e | certs
    · exact (main [] 500 _).1
    · unfold handleRenewMode
      split_ifs <;> exact (main _ _ _).1
  · rcases configDoc with e | certs
    · exact (main [] 500 _).2
    · unfold handleRenewMode
      split_ifs <;> exact (main _ _ _).2
  · intro hpos
    have h2 : (handleRenewMode env configDoc fil dry).1.totalSuccess
        + (handleRenewMode env configDoc fil dry).1.totalFailed
        + (handleRenewMode env configDoc fil dry).1.totalSkipped
      = (handleRenewMode env configDoc fil dry).1.totalProcessed
        + ((handleRenewMode env configDoc fil dry).1.results.filter
            (fun r => r.success && r.skipped)).length := by
      rcases configDoc with e | certs
      · exact (main [] 500 _).2
      · unfold handleRenewMode
        split_ifs <;> exact (main _ _ _).2
    omega

/-- Witness for C10's strict inequality: a dry-run pass over the
scenario-D batch emits three dry-run results, so the counters sum to
strictly more than `totalProcessed`. -/
theorem C10_dry_run_witness :
    0 < ((handleRenewMode benignEnv (.ok scenarioDCerts) none true).1.results.filter
          (fun r => r.success && r.skipped)).length ∧
    (handleRenewMode benignEnv (.ok scenarioDCerts) none true).1.totalProcessed
      < (handleRenewMode benignEnv (.ok scenarioDCerts) none true).1.totalSuccess
          + (handleRenewMode benignEnv (.ok scenarioDCerts) none true).1.totalFailed
          + (handleRenewMode benignEnv (.ok scenarioDCerts) none true).1.totalSkipped :=
  ⟨by decide,
    (C10_dry_run_double_count benignEnv (.ok scenarioDCerts) none true).2.2.2
      (by decide)⟩

end AcmeToAcm
